import Mathlib

/-!
Verification development for the admission-control and lifecycle subsystem of
the flick-info HTTP service: the per-key token-bucket rate limiter with idle
eviction (cmd/api/middleware.go, rateLimit), the background-task tracker
(application.wg plus the background helper used by registerUserHandler), and
the graceful-shutdown coordinator (serve).

Time is modelled in seconds as rationals; token counts are rationals
(fractional accrual); HTTP statuses are naturals.
-/

namespace FlickInfo

/-- The limiter section of the configuration struct (cmd/api/main.go, `config.limiter`):
`rps` (requests per second, float), `burst` (int), `enabled` (bool). -/
structure LimiterConfig where
  rps : ℚ
  burst : ℕ
  enabled : Bool
deriving Repr, DecidableEq

/-- Modelled from the spec: the token bucket held by each client entry is a
`golang.org/x/time/rate` `Limiter`, an external dependency whose source is not
under src/. Per spec §3 (TokenBucket): capacity (burst), refill rate, current
tokens as a real number, and the last-refill timestamp. -/
structure Limiter where
  limit : ℚ
  burst : ℕ
  tokens : ℚ
  last : ℚ
deriving Repr, DecidableEq

/-- Modelled from the spec §3: tokens are recomputed lazily at read time as
`min(capacity, tokens + elapsed * refillRate)`. -/
def Limiter.advance (l : Limiter) (now : ℚ) : ℚ :=
  min (l.burst : ℚ) (l.tokens + (now - l.last) * l.limit)

/-- Modelled from the spec §4.1: recompute tokens clamped to capacity; if at
least one token is available, subtract 1, update the refill timestamp and
admit; otherwise deny, keeping only the recomputation (a denial does not
consume a token). -/
def Limiter.allow (l : Limiter) (now : ℚ) : Bool × Limiter :=
  let t := l.advance now
  if 1 ≤ t then
    (true, { l with tokens := t - 1, last := now })
  else
    (false, { l with tokens := t, last := now })

/-- Modelled from the spec §4.1: a first-seen key gets an entry with a full
bucket (`tokens = capacity`). Mirrors `rate.NewLimiter(rate.Limit(rps), burst)`
as used at middleware.go:81, which makes the full burst available to the
first requests. -/
def newLimiter (rps : ℚ) (burst : ℕ) (now : ℚ) : Limiter :=
  { limit := rps, burst := burst, tokens := (burst : ℚ), last := now }

/-- The per-client record of the middleware's `clients` map
(middleware.go:36-39): the rate limiter and the last-seen time. -/
structure ClientEntry where
  limiter : Limiter
  lastSeen : ℚ
deriving Repr, DecidableEq

/-- The `clients` map of the rateLimit middleware (middleware.go:44),
modelled as a total function from keys to optional entries. -/
def RegMap := String → Option ClientEntry

/-- Assignment `clients[ip] = e` on the map. -/
def RegMap.update (m : RegMap) (k : String) (e : ClientEntry) : RegMap :=
  fun k' => if k' = k then some e else m k'

/-- The per-key body of the rateLimit handler once the key is in hand
(middleware.go:79-94): if the key is absent, insert a fresh entry holding a
new limiter (lastSeen zero-valued at creation, as in the Go struct literal);
then set the entry's lastSeen to the current time; then call Allow on the
entry's limiter. -/
def entryStep (cfg : LimiterConfig) (eOpt : Option ClientEntry) (now : ℚ) : Bool × ClientEntry :=
  let e0 : ClientEntry :=
    match eOpt with
    | some e => e
    | none => { limiter := newLimiter cfg.rps cfg.burst now, lastSeen := 0 }
  let e1 : ClientEntry := { e0 with lastSeen := now }
  let s := e1.limiter.allow now
  (s.1, { e1 with limiter := s.2 })

/-- One admission decision at the registry level: look up the key, run the
per-key body, write the resulting entry back into the map
(middleware.go:79-94, under the registry lock). -/
def allowStep (cfg : LimiterConfig) (m : RegMap) (k : String) (now : ℚ) : Bool × RegMap :=
  let s := entryStep cfg (m k) now
  (s.1, m.update k s.2)

/-- One pass of the eviction goroutine (middleware.go:48-65): every entry
whose lastSeen is more than 3 minutes (180 seconds) old is deleted; all
others are kept. The Go loop visits each map entry, so the sweep acts
pointwise on the map. -/
def evictSweep (m : RegMap) (now : ℚ) : RegMap :=
  fun k =>
    match m k with
    | some e => if now - e.lastSeen > 3 * 60 then none else some e
    | none => none

/-- Model of the Go standard-library `net.SplitHostPort` restricted to the
address shapes exercised here: an address containing a colon splits into the
part before the last colon (the host); an address with no colon fails with a
missing-port error (as `net.SplitHostPort("localhost")` does). `none` stands
for the error case. -/
def splitHostPort (addr : String) : Option String :=
  if addr.toList.contains ':' then
    some (String.mk (((addr.toList.reverse.dropWhile (fun c => c != ':')).drop 1).reverse))
  else
    none

/-- What the middleware hands back for one request: pass the request on to
the next handler, or respond immediately with the given HTTP status. -/
inductive RLOutcome where
  | passed
  | responded (status : ℕ)
deriving Repr, DecidableEq

/-- Status written by serverErrorResponse (cmd/api/errors.go:28-33): it
passes `http.StatusNotFound` to errorResponse, i.e. 404 — even though its
own comment says it sends a 500 Internal Server Error. -/
def serverErrorStatus : ℕ := 404

/-- Modelled from the spec: `rateLimitExceedResponse` is called at
middleware.go:92/379 but its definition is not under src/. Per spec §6, a
denied request maps to `429 Too Many Requests`. -/
def rateLimitExceedStatus : ℕ := 429

/-- An inbound request, reduced to the field the middleware reads:
`r.RemoteAddr`. -/
structure Request where
  remoteAddr : String
deriving Repr, DecidableEq

/-- The rateLimit middleware handler (middleware.go:350-392): if the limiter
is enabled, derive the caller key with net.SplitHostPort — on failure respond
via serverErrorResponse and stop; otherwise run the per-key admission step,
responding via rateLimitExceedResponse on denial and passing the request on
when admitted. When the limiter is disabled the request passes straight
through with no state touched. -/
def rateLimitHandle (cfg : LimiterConfig) (m : RegMap) (req : Request) (now : ℚ) :
    RLOutcome × RegMap :=
  if cfg.enabled then
    match splitHostPort req.remoteAddr with
    | none => (RLOutcome.responded serverErrorStatus, m)
    | some ip =>
      let s := allowStep cfg m ip now
      if s.1 then (RLOutcome.passed, s.2)
      else (RLOutcome.responded rateLimitExceedStatus, s.2)
  else
    (RLOutcome.passed, m)

/-- A sequence of admission decisions: feed each (key, time) request through
`allowStep`, threading the registry map, and record each key with its
admit/deny outcome. -/
def runTrace (cfg : LimiterConfig) (m : RegMap) :
    List (String × ℚ) → List (String × Bool) × RegMap
  | [] => ([], m)
  | r :: rs =>
    let s := allowStep cfg m r.1 r.2
    let rest := runTrace cfg s.2 rs
    ((r.1, s.1) :: rest.1, rest.2)

/-- The outcome a spawned background task's body would have on its own:
normal return, or an abnormal termination (a Go panic) carrying a message. -/
inductive TaskOutcome where
  | ok
  | fault (msg : String)
deriving Repr, DecidableEq

/-- The background-task tracker: the application's WaitGroup counter
(`application.wg`, main.go part) together with the error log written by
`app.logger.PrintError`. -/
structure Tracker where
  outstanding : ℕ
  log : List String
deriving Repr, DecidableEq

/-- Modelled from the spec: the `background` helper is invoked by
registerUserHandler (users.go:70) but its definition is not under src/; only
the application struct's `wg sync.WaitGroup` field is. Per spec §4.2, Spawn
increments the outstanding count, executes the task in its own concurrent
unit behind a recover boundary that catches and logs any abnormal
termination, and decrements the count exactly once on every exit path. This
models the complete lifecycle of one spawned task: the returned tracker is
the state after the task has finished (normally or by a caught fault). -/
def Tracker.spawnRun (tr : Tracker) (task : TaskOutcome) : Tracker :=
  let tr1 : Tracker := { tr with outstanding := tr.outstanding + 1 }
  let tr2 : Tracker :=
    match task with
    | TaskOutcome.ok => tr1
    | TaskOutcome.fault msg => { tr1 with log := msg :: tr1.log }
  { tr2 with outstanding := tr2.outstanding - 1 }

/-- Running a batch of spawned tasks to completion, one lifecycle after
another. -/
def Tracker.runAll (tr : Tracker) (ts : List TaskOutcome) : Tracker :=
  ts.foldl Tracker.spawnRun tr

/-- Modelled from the spec §4.2: `Wait()` blocks until the outstanding count
reaches zero, so it returns exactly when the count is zero. -/
def waitReturns (tr : Tracker) : Prop := tr.outstanding = 0

instance (tr : Tracker) : Decidable (waitReturns tr) := by
  unfold waitReturns; infer_instance

/-- Errors observable at the boundary of serve (src/unnamed/part_005,
second serve): `http.ErrServerClosed` (the accept loop closed because
Shutdown was called), the context deadline-exceeded error produced when the
5-second shutdown context expires, or any other error, abstracted by a
code. -/
inductive GoErr where
  | serverClosed
  | deadlineExceeded
  | other (code : ℕ)
deriving Repr, DecidableEq

/-- The fixed shutdown deadline: `context.WithTimeout(..., 5 * time.Second)`
(part_005:254). -/
def shutdownDeadline : ℚ := 5

/-- Observable actions of the signal-handling goroutine, in program order. -/
inductive SEvent where
  | signalCaught
  | shutdownCalled
  | waitCalled
  | sentOnChannel
deriving Repr, DecidableEq

/-- The environment a run of serve is exposed to: when the first
SIGINT/SIGTERM arrives, how long `srv.Shutdown` needs to drain in-flight
connections, the absolute time at which all background tasks finish, and an
optional failure of ListenAndServe unrelated to shutdown (the error and the
time it occurs). -/
structure ServeEnv where
  sigTime : ℚ
  drainDur : ℚ
  bgDone : ℚ
  listenFailure : Option (GoErr × ℚ)
deriving Repr, DecidableEq

/-- The signal-handling goroutine of serve (part_005:236-274): receive the
first termination signal, log it, create a context with the 5-second
deadline, call `srv.Shutdown(ctx)`. If Shutdown fails (the deadline expired
before in-flight connections drained), send that error on the shutdownError
channel — this is the value the main goroutine receives — and only then fall
through to `wg.Wait()`. If Shutdown succeeds, call `wg.Wait()`, which
returns only when all background tasks are done (the wait is not governed by
the context deadline), then send nil. Returns the event order, the first
value sent on the channel, and the time of that send. -/
def signalGoroutine (env : ServeEnv) : List SEvent × Option GoErr × ℚ :=
  if env.drainDur > shutdownDeadline then
    ([SEvent.signalCaught, SEvent.shutdownCalled, SEvent.sentOnChannel, SEvent.waitCalled],
     some GoErr.deadlineExceeded, env.sigTime + shutdownDeadline)
  else
    ([SEvent.signalCaught, SEvent.shutdownCalled, SEvent.waitCalled, SEvent.sentOnChannel],
     none, max (env.sigTime + env.drainDur) env.bgDone)

/-- What `srv.ListenAndServe()` returns: on a failure unrelated to shutdown,
that error at its time; otherwise `http.ErrServerClosed` once Shutdown is
called (part_005:282-285). -/
def listenAndServe (env : ServeEnv) : GoErr × ℚ :=
  match env.listenFailure with
  | some f => f
  | none => (GoErr.serverClosed, env.sigTime)

/-- The observable result of one run of serve: the returned error (none for
nil), when it returns, whether it waited on the drain protocol (the
shutdownError channel) before returning, and the events of the
signal-handling goroutine it synchronized with. -/
structure ServeRun where
  result : Option GoErr
  retTime : ℚ
  waitedOnDrain : Bool
  events : List SEvent
deriving Repr, DecidableEq

/-- serve (part_005:221-303): run ListenAndServe; any error other than
`http.ErrServerClosed` is returned immediately, bypassing the drain
protocol. On `http.ErrServerClosed`, receive from the shutdownError channel
— the first value the signal goroutine sends — returning that error if
non-nil and nil on success. -/
def serve (env : ServeEnv) : ServeRun :=
  match listenAndServe env with
  | (GoErr.serverClosed, _) =>
    let g := signalGoroutine env
    { result := g.2.1, retTime := g.2.2, waitedOnDrain := true, events := g.1 }
  | (e, t) =>
    { result := some e, retTime := t, waitedOnDrain := false, events := [] }

/-- Whether, in an event sequence, the acceptor shutdown call occurs and the
background-task wait begins strictly after it. -/
def shutdownBeforeWait : List SEvent → Bool
  | [] => false
  | SEvent.shutdownCalled :: rest => rest.contains SEvent.waitCalled
  | SEvent.waitCalled :: _ => false
  | _ :: rest => shutdownBeforeWait rest

/-! Helper lemmas shared by the claim theorems. -/

@[simp]
theorem RegMap.update_self (m : RegMap) (k : String) (e : ClientEntry) :
    m.update k e k = some e := by
  simp [RegMap.update]

@[simp]
theorem RegMap.update_other (m : RegMap) (k k' : String) (e : ClientEntry) (h : k' ≠ k) :
    m.update k e k' = m k' := by
  simp [RegMap.update, h]

theorem entryStep_none (cfg : LimiterConfig) (now : ℚ) :
    entryStep cfg none now =
      (((newLimiter cfg.rps cfg.burst now).allow now).1,
       ⟨((newLimiter cfg.rps cfg.burst now).allow now).2, now⟩) := rfl

theorem entryStep_some (cfg : LimiterConfig) (e : ClientEntry) (now : ℚ) :
    entryStep cfg (some e) now =
      ((e.limiter.allow now).1, ⟨(e.limiter.allow now).2, now⟩) := rfl

theorem entryStep_lastSeen (cfg : LimiterConfig) (eOpt : Option ClientEntry) (now : ℚ) :
    ((entryStep cfg eOpt now).2).lastSeen = now := by
  cases eOpt <;> rfl

theorem Limiter.allow_admit (l : Limiter) (now : ℚ) (h : 1 ≤ l.advance now) :
    l.allow now = (true, ⟨l.limit, l.burst, l.advance now - 1, now⟩) := by
  rw [Limiter.allow, if_pos h]

theorem Limiter.allow_deny (l : Limiter) (now : ℚ) (h : ¬ 1 ≤ l.advance now) :
    l.allow now = (false, ⟨l.limit, l.burst, l.advance now, now⟩) := by
  rw [Limiter.allow, if_neg h]

theorem newLimiter_advance_self (rps : ℚ) (b : ℕ) (t : ℚ) :
    (newLimiter rps b t).advance t = (b : ℚ) := by
  simp [newLimiter, Limiter.advance]

/-! C8 -/

/-- C8: when the limiter is configured disabled, every request passes
straight through to the next handler and the clients map is untouched. -/
theorem disabled_limiter_admits_all (cfg : LimiterConfig) (m : RegMap) (req : Request)
    (now : ℚ) (h : cfg.enabled = false) :
    rateLimitHandle cfg m req now = (RLOutcome.passed, m) := by
  simp [rateLimitHandle, h]

/-- C8 witness: a concrete disabled configuration. -/
theorem disabled_limiter_admits_all_witness :
    rateLimitHandle ⟨2, 4, false⟩ (fun _ => none) ⟨"1.2.3.4:80"⟩ 0
      = (RLOutcome.passed, fun _ => none) :=
  disabled_limiter_admits_all ⟨2, 4, false⟩ (fun _ => none) ⟨"1.2.3.4:80"⟩ 0 rfl

/-! C2 -/

/-- C2: evaluating the middleware at a request whose caller-key derivation
fails (RemoteAddr "localhost" has no port, so net.SplitHostPort errors): the
middleware responds via serverErrorResponse, which sends HTTP 404
(`http.StatusNotFound`, errors.go:32) — not the 500 Internal Server Error
its own comment and the spec call for — and it does not respond 429. -/
theorem keyDerivFailure_responds_404 :
    splitHostPort "localhost" = none ∧
    rateLimitHandle ⟨2, 4, true⟩ (fun _ => none) ⟨"localhost"⟩ 0
      = (RLOutcome.responded 404, fun _ => none) ∧
    serverErrorStatus = 404 ∧ serverErrorStatus ≠ 500 ∧ serverErrorStatus ≠ 429 := by
  refine ⟨rfl, ?_, rfl, by decide, by decide⟩
  rfl

/-! C3 -/

/-- C3: a fault inside a spawned background task is caught and logged, never
propagated; the outstanding count is decremented exactly once per task on
every exit path, so the count net-returns to its prior value; and Wait
returns after any batch of tasks, faulting or not, has run. -/
theorem spawn_fault_isolated (tr : Tracker) (task : TaskOutcome)
    (ts : List TaskOutcome) (l : List String) :
    (tr.spawnRun task).outstanding = tr.outstanding ∧
    (∀ msg, task = TaskOutcome.fault msg → msg ∈ (tr.spawnRun task).log) ∧
    waitReturns (Tracker.runAll ⟨0, l⟩ ts) := by
  have hcount : ∀ (tr' : Tracker) (tk : TaskOutcome),
      (tr'.spawnRun tk).outstanding = tr'.outstanding := by
    intro tr' tk
    cases tk <;> simp [Tracker.spawnRun]
  refine ⟨hcount tr task, ?_, ?_⟩
  · intro msg hmsg
    subst hmsg
    simp [Tracker.spawnRun]
  · have key : ∀ (ts' : List TaskOutcome) (tr' : Tracker),
        (Tracker.runAll tr' ts').outstanding = tr'.outstanding := by
      intro ts'
      induction ts' with
      | nil => intro tr'; rfl
      | cons t ts'' ih =>
        intro tr'
        have : Tracker.runAll tr' (t :: ts'') = Tracker.runAll (tr'.spawnRun t) ts'' := rfl
        rw [this, ih, hcount]
    unfold waitReturns
    rw [key]

/-- C3 witness: one faulting task is logged without propagating, the count
returns to zero, and Wait returns after a batch containing a fault. -/
theorem spawn_fault_isolated_witness :
    (Tracker.spawnRun ⟨0, []⟩ (TaskOutcome.fault "boom")).outstanding = 0 ∧
    "boom" ∈ (Tracker.spawnRun ⟨0, []⟩ (TaskOutcome.fault "boom")).log ∧
    waitReturns (Tracker.runAll ⟨0, []⟩ [TaskOutcome.fault "a", TaskOutcome.ok]) := by
  obtain ⟨h1, h2, h3⟩ :=
    spawn_fault_isolated ⟨0, []⟩ (TaskOutcome.fault "boom")
      [TaskOutcome.fault "a", TaskOutcome.ok] []
  exact ⟨h1, h2 "boom" rfl, h3⟩

/-! C1 -/

/-- C1 counterexample: with the signal at t=0, an instantaneous acceptor
drain, and a background task finishing only at t=100, the drain-plus-wait
does not complete within the 5-second deadline, yet serve returns nil (no
deadline-exceeded error) — it simply blocks until t=100. -/
theorem serve_long_bg_task_returns_nil :
    (serve ⟨0, 0, 100, none⟩).retTime > 0 + shutdownDeadline ∧
    (serve ⟨0, 0, 100, none⟩).result ≠ some GoErr.deadlineExceeded ∧
    (serve ⟨0, 0, 100, none⟩).result = none := by
  have h : serve ⟨0, 0, 100, none⟩ =
      { result := none, retTime := 100, waitedOnDrain := true,
        events := [SEvent.signalCaught, SEvent.shutdownCalled,
                   SEvent.waitCalled, SEvent.sentOnChannel] } := by
    norm_num [serve, listenAndServe, signalGoroutine, shutdownDeadline]
  rw [h]
  refine ⟨by norm_num [shutdownDeadline], by simp, rfl⟩

/-- C1 amended: the 5-second deadline bounds only the acceptor drain
(srv.Shutdown). If draining in-flight connections exceeds the deadline,
serve returns the context deadline-exceeded error at the deadline; the
background-task wait is not covered by the deadline, so when the drain
finishes in time, serve returns nil only once both the drain and the last
background task are done — however late that is. -/
theorem serve_deadline_covers_drain_only (env : ServeEnv) (h : env.listenFailure = none) :
    (shutdownDeadline < env.drainDur →
      (serve env).result = some GoErr.deadlineExceeded ∧
      (serve env).retTime = env.sigTime + shutdownDeadline) ∧
    (env.drainDur ≤ shutdownDeadline →
      (serve env).result = none ∧
      (serve env).retTime = max (env.sigTime + env.drainDur) env.bgDone) := by
  have hs : serve env =
      { result := (signalGoroutine env).2.1, retTime := (signalGoroutine env).2.2,
        waitedOnDrain := true, events := (signalGoroutine env).1 } := by
    simp [serve, listenAndServe, h]
  constructor
  · intro hd
    rw [hs]
    unfold signalGoroutine
    rw [if_pos hd]
    exact ⟨rfl, rfl⟩
  · intro hd
    rw [hs]
    unfold signalGoroutine
    rw [if_neg (not_lt.mpr hd)]
    exact ⟨rfl, rfl⟩

/-- C1 amended witness: a drain needing 6 seconds yields the
deadline-exceeded error at signal time + 5; a 1-second drain with background
work done by t=2 yields nil at t=2. -/
theorem serve_deadline_covers_drain_only_witness :
    ((serve ⟨0, 6, 0, none⟩).result = some GoErr.deadlineExceeded ∧
     (serve ⟨0, 6, 0, none⟩).retTime = 0 + shutdownDeadline) ∧
    ((serve ⟨0, 1, 2, none⟩).result = none ∧
     (serve ⟨0, 1, 2, none⟩).retTime = max (0 + 1) 2) := by
  constructor
  · exact (serve_deadline_covers_drain_only ⟨0, 6, 0, none⟩ rfl).1
      (by norm_num [shutdownDeadline])
  · exact (serve_deadline_covers_drain_only ⟨0, 1, 2, none⟩ rfl).2
      (by norm_num [shutdownDeadline])

/-! C5 -/

/-- C5: in every shutdown run (accept loop closed by the protocol), the
acceptor shutdown call occurs strictly before the background-task wait
begins; and when the drain finishes within the deadline and all background
tasks are done by the deadline, serve returns nil no later than the
deadline. -/
theorem shutdown_precedes_wait (env : ServeEnv) (h : env.listenFailure = none) :
    shutdownBeforeWait (serve env).events = true ∧
    (env.drainDur ≤ shutdownDeadline → env.bgDone ≤ env.sigTime + shutdownDeadline →
      (serve env).result = none ∧ (serve env).retTime ≤ env.sigTime + shutdownDeadline) := by
  have hs : serve env =
      { result := (signalGoroutine env).2.1, retTime := (signalGoroutine env).2.2,
        waitedOnDrain := true, events := (signalGoroutine env).1 } := by
    simp [serve, listenAndServe, h]
  constructor
  · rw [hs]
    unfold signalGoroutine
    split <;> rfl
  · intro hd hbg
    rw [hs]
    unfold signalGoroutine
    rw [if_neg (not_lt.mpr hd)]
    refine ⟨rfl, ?_⟩
    exact max_le (by linarith) hbg

/-- C5 witness: signal at t=0, a 1-second drain, background work done at
t=2. -/
theorem shutdown_precedes_wait_witness :
    shutdownBeforeWait (serve ⟨0, 1, 2, none⟩).events = true ∧
    (serve ⟨0, 1, 2, none⟩).result = none ∧
    (serve ⟨0, 1, 2, none⟩).retTime ≤ 0 + shutdownDeadline := by
  obtain ⟨h1, h2⟩ := shutdown_precedes_wait ⟨0, 1, 2, none⟩ rfl
  have h3 := h2 (by norm_num [shutdownDeadline]) (by norm_num [shutdownDeadline])
  exact ⟨h1, h3.1, h3.2⟩

/-! C6 -/

/-- C6: the accept loop's closure cause is discriminated. When
ListenAndServe returns `http.ErrServerClosed` (closure caused by the
shutdown protocol), serve does not treat it as fatal: it waits on the drain
protocol and returns the drain outcome, never ErrServerClosed itself. When
ListenAndServe returns any other error, serve returns exactly that error
immediately, without waiting on the drain protocol. -/
theorem accept_loop_closure_discrimination (env : ServeEnv) :
    (env.listenFailure = none →
      (serve env).waitedOnDrain = true ∧
      (serve env).result = (signalGoroutine env).2.1 ∧
      (serve env).result ≠ some GoErr.serverClosed) ∧
    (∀ e t, env.listenFailure = some (e, t) → e ≠ GoErr.serverClosed →
      serve env = ⟨some e, t, false, []⟩) := by
  constructor
  · intro h
    have hs : serve env =
        { result := (signalGoroutine env).2.1, retTime := (signalGoroutine env).2.2,
          waitedOnDrain := true, events := (signalGoroutine env).1 } := by
      simp [serve, listenAndServe, h]
    rw [hs]
    refine ⟨rfl, rfl, ?_⟩
    unfold signalGoroutine
    split <;> simp
  · intro e t hf hne
    cases e with
    | serverClosed => exact absurd rfl hne
    | deadlineExceeded => simp [serve, listenAndServe, hf]
    | other code => simp [serve, listenAndServe, hf]

/-- C6 witness: a run closed by the shutdown protocol proceeds with the
drain outcome; a run whose listener fails with an unrelated error (code 13
at t=1) returns that error without the drain wait. -/
theorem accept_loop_closure_discrimination_witness :
    ((serve ⟨0, 1, 2, none⟩).waitedOnDrain = true ∧
     (serve ⟨0, 1, 2, none⟩).result = (signalGoroutine ⟨0, 1, 2, none⟩).2.1 ∧
     (serve ⟨0, 1, 2, none⟩).result ≠ some GoErr.serverClosed) ∧
    serve ⟨0, 1, 2, some (GoErr.other 13, 1)⟩ = ⟨some (GoErr.other 13), 1, false, []⟩ := by
  constructor
  · exact (accept_loop_closure_discrimination ⟨0, 1, 2, none⟩).1 rfl
  · exact (accept_loop_closure_discrimination ⟨0, 1, 2, some (GoErr.other 13, 1)⟩).2
      (GoErr.other 13) 1 rfl (by decide)

/-! C7 -/

/-- C7: an eviction sweep removes every entry whose lastSeen is more than
the 3-minute idle threshold old, and the next request from an evicted key is
treated as first-seen: a fresh entry is created with a full bucket, so the
request is admitted (capacity at least 1) and the stored entry holds the
full burst minus the one token just consumed. -/
theorem eviction_removes_idle_then_fresh (m : RegMap) (now t : ℚ) (rps : ℚ) (b : ℕ)
    (en : Bool) (k : String) (e : ClientEntry)
    (hk : m k = some e) (hidle : now - e.lastSeen > 3 * 60) (hb : 1 ≤ b) :
    evictSweep m now k = none ∧
    (allowStep ⟨rps, b, en⟩ (evictSweep m now) k t).1 = true ∧
    ((allowStep ⟨rps, b, en⟩ (evictSweep m now) k t).2) k
      = some ⟨⟨rps, b, (b : ℚ) - 1, t⟩, t⟩ := by
  have h0 : evictSweep m now k = none := by
    simp [evictSweep, hk, hidle]
  have hone : (1 : ℚ) ≤ (b : ℚ) := by exact_mod_cast hb
  have hallow : (newLimiter rps b t).allow t = (true, ⟨rps, b, (b : ℚ) - 1, t⟩) := by
    rw [Limiter.allow_admit _ _ (by rw [newLimiter_advance_self]; exact hone)]
    rw [newLimiter_advance_self]
    rfl
  have hstep : allowStep ⟨rps, b, en⟩ (evictSweep m now) k t
      = (true, (evictSweep m now).update k ⟨⟨rps, b, (b : ℚ) - 1, t⟩, t⟩) := by
    unfold allowStep
    rw [h0, entryStep_none]
    simp only
    rw [hallow]
  refine ⟨h0, ?_, ?_⟩
  · rw [hstep]
  · rw [hstep]
    simp

/-- C7 witness: a key last seen at t=0 is gone after a sweep at t=200, and
its next request at t=200 is admitted against a fresh full bucket of 4. -/
theorem eviction_removes_idle_then_fresh_witness :
    evictSweep (RegMap.update (fun _ => none) "1.2.3.4" ⟨⟨2, 4, 0, 0⟩, 0⟩) 200 "1.2.3.4"
      = none ∧
    (allowStep ⟨2, 4, true⟩
      (evictSweep (RegMap.update (fun _ => none) "1.2.3.4" ⟨⟨2, 4, 0, 0⟩, 0⟩) 200)
      "1.2.3.4" 200).1 = true ∧
    ((allowStep ⟨2, 4, true⟩
      (evictSweep (RegMap.update (fun _ => none) "1.2.3.4" ⟨⟨2, 4, 0, 0⟩, 0⟩) 200)
      "1.2.3.4" 200).2) "1.2.3.4" = some ⟨⟨2, 4, (4 : ℚ) - 1, 200⟩, 200⟩ := by
  have h := eviction_removes_idle_then_fresh
    (RegMap.update (fun _ => none) "1.2.3.4" ⟨⟨2, 4, 0, 0⟩, 0⟩) 200 200 2 4 true
    "1.2.3.4" ⟨⟨2, 4, 0, 0⟩, 0⟩ (by simp) (by norm_num) (by norm_num)
  simpa using h

/-! C10 -/

/-- C10: with the limiter enabled and the caller key derived, the request's
entry has its lastSeen set to the current time — on denied requests just as
on admitted ones — so an eviction sweep within the idle threshold of that
request leaves the entry in place: a continuously-denied client is never
evicted and never regains a fresh bucket that way. -/
theorem lastSeen_refreshed_even_on_denial (cfg : LimiterConfig) (m : RegMap)
    (req : Request) (now : ℚ) (k : String)
    (hen : cfg.enabled = true) (hs : splitHostPort req.remoteAddr = some k) :
    ((rateLimitHandle cfg m req now).2) k = some (entryStep cfg (m k) now).2 ∧
    ((entryStep cfg (m k) now).2).lastSeen = now ∧
    (∀ laterTime, ¬ (laterTime - now > 3 * 60) →
      evictSweep ((rateLimitHandle cfg m req now).2) laterTime k
        = some (entryStep cfg (m k) now).2) := by
  have hm : (rateLimitHandle cfg m req now).2 = (allowStep cfg m k now).2 := by
    rw [rateLimitHandle, if_pos (by rw [hen]), hs]
    simp only
    split <;> rfl
  have hlook : ((allowStep cfg m k now).2) k = some (entryStep cfg (m k) now).2 := by
    unfold allowStep
    simp
  refine ⟨by rw [hm, hlook], entryStep_lastSeen cfg (m k) now, ?_⟩
  intro laterTime hlt
  rw [hm]
  simp [evictSweep, hlook, entryStep_lastSeen, hlt]

/-- C10 witness: an enabled limiter with zero capacity denies the request
from 5.6.7.8:80, yet its entry carries lastSeen = 10 and survives a sweep at
t=190 (180 seconds later). -/
theorem lastSeen_refreshed_even_on_denial_witness :
    ((rateLimitHandle ⟨0, 0, true⟩ (fun _ => none) ⟨"5.6.7.8:80"⟩ 10).1
      = RLOutcome.responded 429) ∧
    ((rateLimitHandle ⟨0, 0, true⟩ (fun _ => none) ⟨"5.6.7.8:80"⟩ 10).2) "5.6.7.8"
      = some (entryStep ⟨0, 0, true⟩ none 10).2 ∧
    ((entryStep ⟨0, 0, true⟩ none 10).2).lastSeen = 10 ∧
    evictSweep ((rateLimitHandle ⟨0, 0, true⟩ (fun _ => none) ⟨"5.6.7.8:80"⟩ 10).2) 190
      "5.6.7.8" = some (entryStep ⟨0, 0, true⟩ none 10).2 := by
  have h := lastSeen_refreshed_even_on_denial ⟨0, 0, true⟩ (fun _ => none)
    ⟨"5.6.7.8:80"⟩ 10 "5.6.7.8" rfl rfl
  refine ⟨?_, h.1, h.2.1, h.2.2 190 (by norm_num)⟩
  have hden : (newLimiter (0 : ℚ) 0 10).allow 10 = (false, ⟨0, 0, 0, 10⟩) := by
    have hadv : (newLimiter (0 : ℚ) 0 10).advance 10 = 0 := by
      simp [newLimiter_advance_self]
    rw [Limiter.allow_deny _ _ (by rw [hadv]; norm_num), hadv]
    rfl
  have hstep : allowStep ⟨0, 0, true⟩ (fun _ => none) "5.6.7.8" 10
      = (false, RegMap.update (fun _ => none) "5.6.7.8" ⟨⟨0, 0, 0, 10⟩, 10⟩) := by
    simp only [allowStep, entryStep_none]
    rw [show (newLimiter (⟨0, 0, true⟩ : LimiterConfig).rps
          (⟨0, 0, true⟩ : LimiterConfig).burst 10) = newLimiter (0 : ℚ) 0 10 from rfl]
    rw [hden]
  rw [rateLimitHandle]
  rw [if_pos (show (⟨0, 0, true⟩ : LimiterConfig).enabled = true from rfl)]
  rw [show splitHostPort "5.6.7.8:80" = some "5.6.7.8" from rfl]
  simp only [hstep]
  rfl

/-! C9 -/

/-- The admit/deny outcomes recorded for one key, in order, within a full
trace of keyed outcomes. -/
def outcomesFor (k : String) : List (String × Bool) → List Bool
  | [] => []
  | p :: ps => if p.1 = k then p.2 :: outcomesFor k ps else outcomesFor k ps

/-- The sub-sequence of a request trace addressed to one key. -/
def requestsFor (k : String) : List (String × ℚ) → List (String × ℚ)
  | [] => []
  | r :: rs => if r.1 = k then r :: requestsFor k rs else requestsFor k rs

theorem allowStep_fst (cfg : LimiterConfig) (m : RegMap) (k : String) (now : ℚ) :
    (allowStep cfg m k now).1 = (entryStep cfg (m k) now).1 := rfl

theorem allowStep_snd_self (cfg : LimiterConfig) (m : RegMap) (k : String) (now : ℚ) :
    ((allowStep cfg m k now).2) k = some (entryStep cfg (m k) now).2 := by
  unfold allowStep
  simp

theorem allowStep_snd_other (cfg : LimiterConfig) (m : RegMap) (k k' : String) (now : ℚ)
    (h : k' ≠ k) : ((allowStep cfg m k now).2) k' = m k' := by
  unfold allowStep
  simp [h]

theorem runTrace_proj (cfg : LimiterConfig) (k : String) :
    ∀ (rs : List (String × ℚ)) (m m' : RegMap), m k = m' k →
      outcomesFor k (runTrace cfg m rs).1
        = ((runTrace cfg m' (requestsFor k rs)).1).map Prod.snd := by
  intro rs
  induction rs with
  | nil => intro m m' h; rfl
  | cons r rs ih =>
    intro m m' h
    by_cases hk : r.1 = k
    · have hstepEq : entryStep cfg (m r.1) r.2 = entryStep cfg (m' r.1) r.2 := by
        rw [hk, h]
      have hagree : ((allowStep cfg m r.1 r.2).2) k = ((allowStep cfg m' r.1 r.2).2) k := by
        rw [← hk, allowStep_snd_self, allowStep_snd_self, hstepEq]
      calc outcomesFor k (runTrace cfg m (r :: rs)).1
          = (allowStep cfg m r.1 r.2).1
              :: outcomesFor k (runTrace cfg ((allowStep cfg m r.1 r.2).2) rs).1 := by
            simp [runTrace, outcomesFor, hk]
        _ = (allowStep cfg m' r.1 r.2).1
              :: ((runTrace cfg ((allowStep cfg m' r.1 r.2).2) (requestsFor k rs)).1).map
                  Prod.snd := by
            rw [allowStep_fst, allowStep_fst, hstepEq,
              ih ((allowStep cfg m r.1 r.2).2) ((allowStep cfg m' r.1 r.2).2) hagree]
        _ = ((runTrace cfg m' (requestsFor k (r :: rs))).1).map Prod.snd := by
            simp [requestsFor, hk, runTrace]
    · have hagree : ((allowStep cfg m r.1 r.2).2) k = m' k := by
        rw [allowStep_snd_other cfg m r.1 k r.2 (fun hkk => hk hkk.symm), h]
      calc outcomesFor k (runTrace cfg m (r :: rs)).1
          = outcomesFor k (runTrace cfg ((allowStep cfg m r.1 r.2).2) rs).1 := by
            simp [runTrace, outcomesFor, hk]
        _ = ((runTrace cfg m' (requestsFor k rs)).1).map Prod.snd :=
            ih ((allowStep cfg m r.1 r.2).2) m' hagree
        _ = ((runTrace cfg m' (requestsFor k (r :: rs))).1).map Prod.snd := by
            simp [requestsFor, hk]

/-- C9: the admission outcomes a key receives in any request trace are
exactly the outcomes of running that key's requests alone from the same
initial registry: requests from other keys, whatever their number, timing or
interleaving, never influence them. -/
theorem allow_key_independence (cfg : LimiterConfig) (m : RegMap)
    (rs : List (String × ℚ)) (k : String) :
    outcomesFor k (runTrace cfg m rs).1
      = ((runTrace cfg m (requestsFor k rs)).1).map Prod.snd :=
  runTrace_proj cfg k rs m m rfl

/-! C4 -/

/-- C4: with rate 2/s and burst 4, a key not present in the registry gets
its four immediately-successive requests admitted, the fifth immediate
request denied, and — the denial having consumed no token — after waiting d
seconds with 1/2 ≤ d < 1 (one token's worth of refill and less than two)
exactly one further request is admitted: the next request goes through and
the one immediately after it is denied again. -/
theorem limiter_rps2_burst4_pattern (en : Bool) (m : RegMap) (k : String) (t d : ℚ)
    (hm : m k = none) (hd1 : 1 / 2 ≤ d) (hd2 : d < 1) :
    ((runTrace ⟨2, 4, en⟩ m
        [(k, t), (k, t), (k, t), (k, t), (k, t), (k, t + d), (k, t + d)]).1).map Prod.snd
      = [true, true, true, true, false, true, false] := by
  have hfresh : (newLimiter (2 : ℚ) 4 t).allow t = (true, ⟨2, 4, 3, t⟩) := by
    have hadv : (newLimiter (2 : ℚ) 4 t).advance t = 4 := by
      rw [newLimiter_advance_self]; norm_num
    rw [Limiter.allow_admit _ _ (by rw [hadv]; norm_num), hadv]
    norm_num [newLimiter]
  have hsame : ∀ tok : ℚ, tok ≤ 4 → 1 ≤ tok →
      (⟨2, 4, tok, t⟩ : Limiter).allow t = (true, ⟨2, 4, tok - 1, t⟩) := by
    intro tok h4 h1
    have hadv : (⟨2, 4, tok, t⟩ : Limiter).advance t = tok := by
      show min ((4 : ℕ) : ℚ) (tok + (t - t) * 2) = tok
      rw [sub_self, zero_mul, add_zero, min_eq_right (by push_cast; linarith)]
    rw [Limiter.allow_admit _ _ (by rw [hadv]; exact h1), hadv]
  have hdeny : (⟨2, 4, (0 : ℚ), t⟩ : Limiter).allow t = (false, ⟨2, 4, 0, t⟩) := by
    have hadv : (⟨2, 4, (0 : ℚ), t⟩ : Limiter).advance t = 0 := by
      show min ((4 : ℕ) : ℚ) (0 + (t - t) * 2) = 0
      rw [sub_self, zero_mul, add_zero, min_eq_right (by push_cast; linarith)]
    rw [Limiter.allow_deny _ _ (by rw [hadv]; norm_num), hadv]
  have hallow6 : (⟨2, 4, (0 : ℚ), t⟩ : Limiter).allow (t + d)
      = (true, ⟨2, 4, d * 2 - 1, t + d⟩) := by
    have hadv : (⟨2, 4, (0 : ℚ), t⟩ : Limiter).advance (t + d) = d * 2 := by
      show min ((4 : ℕ) : ℚ) (0 + (t + d - t) * 2) = d * 2
      rw [add_sub_cancel_left, zero_add, min_eq_right (by push_cast; linarith)]
    rw [Limiter.allow_admit _ _ (by rw [hadv]; linarith), hadv]
  have hallow7 : (⟨2, 4, d * 2 - 1, t + d⟩ : Limiter).allow (t + d)
      = (false, ⟨2, 4, d * 2 - 1, t + d⟩) := by
    have hadv : (⟨2, 4, d * 2 - 1, t + d⟩ : Limiter).advance (t + d) = d * 2 - 1 := by
      show min ((4 : ℕ) : ℚ) (d * 2 - 1 + (t + d - (t + d)) * 2) = d * 2 - 1
      rw [sub_self, zero_mul, add_zero, min_eq_right (by push_cast; linarith)]
    rw [Limiter.allow_deny _ _ (by rw [hadv]; exact not_le.mpr (by linarith)), hadv]
  have s1 : allowStep ⟨2, 4, en⟩ m k t = (true, m.update k ⟨⟨2, 4, 3, t⟩, t⟩) := by
    unfold allowStep
    rw [hm, entryStep_none]
    rw [show newLimiter (⟨2, 4, en⟩ : LimiterConfig).rps
          (⟨2, 4, en⟩ : LimiterConfig).burst t = newLimiter (2 : ℚ) 4 t from rfl]
    rw [hfresh]
  have s2 : allowStep ⟨2, 4, en⟩ (m.update k ⟨⟨2, 4, 3, t⟩, t⟩) k t
      = (true, (m.update k ⟨⟨2, 4, 3, t⟩, t⟩).update k ⟨⟨2, 4, 2, t⟩, t⟩) := by
    unfold allowStep
    rw [RegMap.update_self, entryStep_some]
    rw [show (⟨⟨2, 4, 3, t⟩, t⟩ : ClientEntry).limiter = (⟨2, 4, 3, t⟩ : Limiter) from rfl]
    rw [hsame 3 (by norm_num) (by norm_num)]
    norm_num
  have s3 : allowStep ⟨2, 4, en⟩
        ((m.update k ⟨⟨2, 4, 3, t⟩, t⟩).update k ⟨⟨2, 4, 2, t⟩, t⟩) k t
      = (true, ((m.update k ⟨⟨2, 4, 3, t⟩, t⟩).update k ⟨⟨2, 4, 2, t⟩, t⟩).update k
          ⟨⟨2, 4, 1, t⟩, t⟩) := by
    unfold allowStep
    rw [RegMap.update_self, entryStep_some]
    rw [show (⟨⟨2, 4, 2, t⟩, t⟩ : ClientEntry).limiter = (⟨2, 4, 2, t⟩ : Limiter) from rfl]
    rw [hsame 2 (by norm_num) (by norm_num)]
    norm_num
  have s4 : allowStep ⟨2, 4, en⟩
        (((m.update k ⟨⟨2, 4, 3, t⟩, t⟩).update k ⟨⟨2, 4, 2, t⟩, t⟩).update k
          ⟨⟨2, 4, 1, t⟩, t⟩) k t
      = (true, (((m.update k ⟨⟨2, 4, 3, t⟩, t⟩).update k ⟨⟨2, 4, 2, t⟩, t⟩).update k
          ⟨⟨2, 4, 1, t⟩, t⟩).update k ⟨⟨2, 4, 0, t⟩, t⟩) := by
    unfold allowStep
    rw [RegMap.update_self, entryStep_some]
    rw [show (⟨⟨2, 4, 1, t⟩, t⟩ : ClientEntry).limiter = (⟨2, 4, 1, t⟩ : Limiter) from rfl]
    rw [hsame 1 (by norm_num) (by norm_num)]
    norm_num
  have s5 : allowStep ⟨2, 4, en⟩
        ((((m.update k ⟨⟨2, 4, 3, t⟩, t⟩).update k ⟨⟨2, 4, 2, t⟩, t⟩).update k
          ⟨⟨2, 4, 1, t⟩, t⟩).update k ⟨⟨2, 4, 0, t⟩, t⟩) k t
      = (false, ((((m.update k ⟨⟨2, 4, 3, t⟩, t⟩).update k ⟨⟨2, 4, 2, t⟩, t⟩).update k
          ⟨⟨2, 4, 1, t⟩, t⟩).update k ⟨⟨2, 4, 0, t⟩, t⟩).update k ⟨⟨2, 4, 0, t⟩, t⟩) := by
    unfold allowStep
    rw [RegMap.update_self, entryStep_some]
    rw [show (⟨⟨2, 4, 0, t⟩, t⟩ : ClientEntry).limiter = (⟨2, 4, 0, t⟩ : Limiter) from rfl]
    rw [hdeny]
  have s6 : allowStep ⟨2, 4, en⟩
        (((((m.update k ⟨⟨2, 4, 3, t⟩, t⟩).update k ⟨⟨2, 4, 2, t⟩, t⟩).update k
          ⟨⟨2, 4, 1, t⟩, t⟩).update k ⟨⟨2, 4, 0, t⟩, t⟩).update k ⟨⟨2, 4, 0, t⟩, t⟩) k (t + d)
      = (true, (((((m.update k ⟨⟨2, 4, 3, t⟩, t⟩).update k ⟨⟨2, 4, 2, t⟩, t⟩).update k
          ⟨⟨2, 4, 1, t⟩, t⟩).update k ⟨⟨2, 4, 0, t⟩, t⟩).update k ⟨⟨2, 4, 0, t⟩, t⟩).update k
          ⟨⟨2, 4, d * 2 - 1, t + d⟩, t + d⟩) := by
    unfold allowStep
    rw [RegMap.update_self, entryStep_some]
    rw [show (⟨⟨2, 4, 0, t⟩, t⟩ : ClientEntry).limiter = (⟨2, 4, 0, t⟩ : Limiter) from rfl]
    rw [hallow6]
  have s7 : allowStep ⟨2, 4, en⟩
        ((((((m.update k ⟨⟨2, 4, 3, t⟩, t⟩).update k ⟨⟨2, 4, 2, t⟩, t⟩).update k
          ⟨⟨2, 4, 1, t⟩, t⟩).update k ⟨⟨2, 4, 0, t⟩, t⟩).update k ⟨⟨2, 4, 0, t⟩, t⟩).update k
          ⟨⟨2, 4, d * 2 - 1, t + d⟩, t + d⟩) k (t + d)
      = (false, ((((((m.update k ⟨⟨2, 4, 3, t⟩, t⟩).update k ⟨⟨2, 4, 2, t⟩, t⟩).update k
          ⟨⟨2, 4, 1, t⟩, t⟩).update k ⟨⟨2, 4, 0, t⟩, t⟩).update k ⟨⟨2, 4, 0, t⟩, t⟩).update k
          ⟨⟨2, 4, d * 2 - 1, t + d⟩, t + d⟩).update k
          ⟨⟨2, 4, d * 2 - 1, t + d⟩, t + d⟩) := by
    unfold allowStep
    rw [RegMap.update_self, entryStep_some]
    rw [show (⟨⟨2, 4, d * 2 - 1, t + d⟩, t + d⟩ : ClientEntry).limiter
          = (⟨2, 4, d * 2 - 1, t + d⟩ : Limiter) from rfl]
    rw [hallow7]
  simp only [runTrace, s1, s2, s3, s4, s5, s6, s7, List.map_cons, List.map_nil]

/-- C4 witness: a concrete run from the empty registry at t = 0 with a
half-second wait. -/
theorem limiter_rps2_burst4_pattern_witness :
    ((runTrace ⟨2, 4, true⟩ (fun _ => none)
        [("9.9.9.9", 0), ("9.9.9.9", 0), ("9.9.9.9", 0), ("9.9.9.9", 0), ("9.9.9.9", 0),
         ("9.9.9.9", 0 + 1 / 2), ("9.9.9.9", 0 + 1 / 2)]).1).map Prod.snd
      = [true, true, true, true, false, true, false] :=
  limiter_rps2_burst4_pattern true (fun _ => none) "9.9.9.9" 0 (1 / 2) rfl
    (by norm_num) (by norm_num)

end FlickInfo
